import Mathlib

/-!
Verification development for the seqra containerized task runner.

Shallow embedding of the Go sources:
  - `internal/utils` (`ExtractTar` and its handlers, over a faithful model of
    `strings.TrimPrefix`, `path.Clean` and `filepath.Join` for a `/` separator),
  - `internal/utils/log` (`DisplayInteractiveProgress`, over a model of
    `encoding/json.Decoder` including its sticky-error behaviour on syntax
    errors: once the scanner reports a syntax error the decoder stores it and
    every later `Decode` call returns the same non-EOF error),
  - `internal/container_run` (`RunGhcrContainer`), modelled as a function from
    an environment of daemon/filesystem outcomes to the trace of daemon actions
    performed and the way the function ends.  `logrus.Fatalf` calls `os.Exit`,
    so a fatal exit runs no deferred functions and nothing after it.

Go strings in the path-manipulation layer are `List Char` (`GoStr`), so that
prefix-stripping facts can be proved by structural induction.
-/

/-! ### Go string / path model (linux separator) -/

abbrev GoStr := List Char

/-- `filepath.Separator` on linux. -/
def sepChar : Char := '/'

/-- `strings.TrimPrefix s pre`: drop `pre` when it is a prefix of `s`,
otherwise return `s` unchanged. -/
def trimPrefixStr (s pre : GoStr) : GoStr :=
  if pre.isPrefixOf s then s.drop pre.length else s

/-- Split a path on the separator character (helper for `path.Clean`). -/
def splitSepAux : GoStr → GoStr → List GoStr
  | [], cur => [cur.reverse]
  | c :: rest, cur =>
    if c = sepChar then cur.reverse :: splitSepAux rest [] else splitSepAux rest (c :: cur)

def splitSep (s : GoStr) : List GoStr := splitSepAux s []

/-- The element-processing loop of `path.Clean`: skip empty and `.` segments,
resolve `..` against the output stack (never above the root when rooted). -/
def cleanSegs (rooted : Bool) : List GoStr → List GoStr → List GoStr
  | out, [] => out.reverse
  | out, s :: rest =>
    if s = [] ∨ s = ['.'] then cleanSegs rooted out rest
    else if s = ['.', '.'] then
      match out with
      | t :: out' =>
        if t = ['.', '.'] then cleanSegs rooted (s :: t :: out') rest
        else cleanSegs rooted out' rest
      | [] => if rooted then cleanSegs rooted [] rest else cleanSegs rooted [s] rest
    else cleanSegs rooted (s :: out) rest

/-- `path.Clean` (equal to `filepath.Clean` on linux). -/
def goClean (p : GoStr) : GoStr :=
  if p = [] then ['.']
  else
    let rooted := p.headD ' ' = sepChar
    let segs := cleanSegs rooted [] (splitSep p)
    let r := (if rooted then [sepChar] else []) ++ List.intercalate [sepChar] segs
    if r = [] then ['.'] else r

/-- `filepath.Join(a, b)`: join the non-empty elements with the separator and
clean the result. -/
def filepathJoin (a b : GoStr) : GoStr :=
  if a = [] then (if b = [] then [] else goClean b) else goClean (a ++ sepChar :: b)

/-- `path.Dir`-style parent (what `filepath.Dir(target)` computes): everything
up to and including the final separator, cleaned. -/
def goDir (p : GoStr) : GoStr :=
  goClean ((p.reverse.dropWhile (· ≠ sepChar)).reverse)

/-! ### Tar entries and the `ExtractTar` embedding (`internal/utils`) -/

/-- `archive/tar` type-flag constants used by `ExtractTar`. -/
def tarTypeReg : Char := '0'
def tarTypeDir : Char := '5'
def tarTypeSymlink : Char := '2'
def tarTypeXGlobalHeader : Char := 'g'

structure TarHeader where
  name : GoStr
  typeflag : Char
  mode : Nat
  linkname : GoStr
  deriving DecidableEq, Repr

structure TarEntry where
  hdr : TarHeader
  content : List Nat
  deriving DecidableEq, Repr

/-- Filesystem side effects performed by the extraction handlers. -/
inductive FsAction where
  | mkdirAll (path : GoStr) (mode : Nat)
  | createFile (path : GoStr)
  | writeFile (path : GoStr) (content : List Nat)
  | symlink (oldname newname : GoStr)
  | skipGlobalHeader
  | skipUnsupported (typeflag : Char) (name : GoStr)
  deriving DecidableEq, Repr

/-- Oracle for the filesystem calls the handlers make: which targets fail. -/
structure FsEnv where
  mkdirFails : List GoStr
  createFails : List GoStr
  copyFails : List GoStr
  symlinkFails : List GoStr
  deriving DecidableEq, Repr

/-- `handleDirectory`: `os.MkdirAll(target, hdr.Mode)`. -/
def handleDirectory (fs : FsEnv) (target : GoStr) (mode : Nat) : Except GoStr (List FsAction) :=
  if target ∈ fs.mkdirFails then .error ("failed to create directory".data)
  else .ok [.mkdirAll target mode]

/-- `handleRegularFile`: create the parent directory, create the file, copy the
entry contents into it. -/
def handleRegularFile (fs : FsEnv) (target : GoStr) (content : List Nat) :
    Except GoStr (List FsAction) :=
  if goDir target ∈ fs.mkdirFails then .error ("failed to create parent dir for file".data)
  else if target ∈ fs.createFails then .error ("failed to create file".data)
  else if target ∈ fs.copyFails then .error ("failed to copy contents".data)
  else .ok [.mkdirAll (goDir target) 493, .createFile target, .writeFile target content]

/-- `handleSymlink`: create the parent directory, then `os.Symlink(hdr.Linkname, target)`. -/
def handleSymlink (fs : FsEnv) (target : GoStr) (linkname : GoStr) :
    Except GoStr (List FsAction) :=
  if goDir target ∈ fs.mkdirFails then .error ("failed to create parent dir for symlink".data)
  else if target ∈ fs.symlinkFails then .error ("failed to create symlink".data)
  else .ok [.mkdirAll (goDir target) 493, .symlink linkname target]

/-- The relative path computed for each entry:
`strings.TrimPrefix(hdr.Name, basePath)` then
`strings.TrimPrefix(relPath, string(filepath.Separator))`. -/
def relPathOf (name basePath : GoStr) : GoStr :=
  trimPrefixStr (trimPrefixStr name basePath) [sepChar]

/-- The host target an entry is written to: under `destPath` preserving the
relative path when the source was a directory, at `destPath` itself otherwise. -/
def entryTarget (name basePath destPath : GoStr) (isSourceDir : Bool) : GoStr :=
  if isSourceDir then filepathJoin destPath (relPathOf name basePath) else destPath

/-- The body of the `ExtractTar` loop for a single entry: the `switch` on
`hdr.Typeflag` with directory / regular file / symlink handled, the global
header skipped at trace level, and any other type skipped with a warning. -/
def extractStep (fs : FsEnv) (basePath destPath : GoStr) (isSourceDir : Bool)
    (e : TarEntry) : Except GoStr (List FsAction) :=
  let target := entryTarget e.hdr.name basePath destPath isSourceDir
  if e.hdr.typeflag = tarTypeDir then handleDirectory fs target e.hdr.mode
  else if e.hdr.typeflag = tarTypeReg then handleRegularFile fs target e.content
  else if e.hdr.typeflag = tarTypeSymlink then handleSymlink fs target e.hdr.linkname
  else if e.hdr.typeflag = tarTypeXGlobalHeader then .ok [.skipGlobalHeader]
  else .ok [.skipUnsupported e.hdr.typeflag e.hdr.name]

/-- `ExtractTar` over a finite stream: the listed entries arrive in order from
`tr.Next`, after which the reader reports either EOF (`none`) or a read error
(`some e`, which the loop turns into a fatal extraction error). -/
def extractTar (fs : FsEnv) (basePath destPath : GoStr) (isSourceDir : Bool) :
    List TarEntry → Option GoStr → Except GoStr (List FsAction)
  | [], none => .ok []
  | [], some e => .error ("error reading tar archive: ".data ++ e)
  | e :: rest, rerr =>
    match extractStep fs basePath destPath isSourceDir e with
    | .error msg => .error msg
    | .ok acts => (extractTar fs basePath destPath isSourceDir rest rerr).map (acts ++ ·)

/-- Skip markers record entries that were logged and ignored. -/
def isSkipAction : FsAction → Bool
  | .skipGlobalHeader => true
  | .skipUnsupported _ _ => true
  | _ => false

/-- The filesystem writes of an action list (skip markers removed). -/
def fsWrites (l : List FsAction) : List FsAction := l.filter (fun a => !isSkipAction a)

/-- Apply a function to the success value of an extraction result. -/
def exceptMapOk (f : List FsAction → List FsAction) :
    Except GoStr (List FsAction) → Except GoStr (List FsAction)
  | .error e => .error e
  | .ok a => .ok (f a)

/-! ### `DisplayInteractiveProgress` (`internal/utils/log`) -/

/-- One decoded pull-progress event. -/
structure ProgressMsg where
  status : String
  progress : String
  id : String
  current : Int
  total : Int
  deriving DecidableEq, Repr

/-- One item of the underlying byte stream, as seen through `json.Decoder`:
a well-formed event, a JSON value of the wrong shape (an unmarshal type error,
which the decoder skips past and recovers from), or malformed bytes (a scanner
syntax error, which the decoder stores in `dec.err` permanently). -/
inductive DecodeItem where
  | ok (m : ProgressMsg)
  | typeErr
  | syntaxErr
  deriving DecidableEq, Repr

structure DecState where
  items : List DecodeItem
  sticky : Bool
  deriving DecidableEq, Repr

inductive DecodeResult where
  | ok (m : ProgressMsg)
  | eof
  | err
  deriving DecidableEq, Repr

/-- `Decoder.Decode`: once a syntax error has been reported the decoder keeps
returning it (`if dec.err != nil { return dec.err }` in `encoding/json`);
an unmarshal type error does not poison the decoder; an exhausted stream
returns `io.EOF`. -/
def decodeNext (st : DecState) : DecodeResult × DecState :=
  if st.sticky then (.err, st)
  else
    match st.items with
    | [] => (.eof, st)
    | .ok m :: rest => (.ok m, { items := rest, sticky := false })
    | .typeErr :: rest => (.err, { items := rest, sticky := false })
    | .syntaxErr :: rest => (.err, { items := rest, sticky := true })

/-- The rendering state of the loop: the `layers` map, the first-seen order,
and the number of lines last printed. -/
structure RenderSt where
  layers : List (String × String)
  layerOrder : List String
  outputLines : Nat
  deriving DecidableEq, Repr

def setAssoc (m : List (String × String)) (k v : String) : List (String × String) :=
  match m with
  | [] => [(k, v)]
  | (k', v') :: rest => if k' = k then (k, v) :: rest else (k', v') :: setAssoc rest k v

def lookupAssoc (m : List (String × String)) (k : String) : Option String :=
  match m with
  | [] => none
  | (k', v') :: rest => if k' = k then some v' else lookupAssoc rest k

/-- `strings.Count(s, "\n") + 1`. -/
def statusLines (s : String) : Nat := s.data.countP (· = '\n') + 1

def renderedLines (layers : List (String × String)) (order : List String) : Nat :=
  match order with
  | [] => 0
  | id :: rest =>
    (match lookupAssoc layers id with
     | some st => statusLines st
     | none => 0) + renderedLines layers rest

/-- The body of the display loop for one decoded event: update `layers` and
`layerOrder`, then recount the printed lines. -/
def updateRender (rs : RenderSt) (m : ProgressMsg) : RenderSt :=
  let (layers, layerOrder) :=
    if m.id ≠ "" then
      let layerOrder :=
        if (lookupAssoc rs.layers m.id).isNone then rs.layerOrder ++ [m.id] else rs.layerOrder
      let line :=
        if m.progress ≠ "" then m.id ++ ": " ++ m.status ++ " " ++ m.progress
        else m.id ++ ": " ++ m.status
      (setAssoc rs.layers m.id line, layerOrder)
    else
      (setAssoc rs.layers ("message_" ++ m.status) m.status,
       rs.layerOrder ++ ["message_" ++ m.status])
  { layers := layers, layerOrder := layerOrder,
    outputLines := renderedLines layers layerOrder }

/-- The `for` loop of `DisplayInteractiveProgress`, with explicit fuel: `none`
means the loop was still running when the fuel ran out, `some rs` means the
loop hit `io.EOF` and returned. -/
def displayLoop (fuel : Nat) (st : DecState) (rs : RenderSt) : Option RenderSt :=
  match fuel with
  | 0 => none
  | n + 1 =>
    match decodeNext st with
    | (.eof, _) => some rs
    | (.err, st') => displayLoop n st' rs
    | (.ok m, st') => displayLoop n st' (updateRender rs m)

/-- `DisplayInteractiveProgress` on a stream, from a fresh decoder and empty
render state. -/
def displayInteractiveProgress (fuel : Nat) (items : List DecodeItem) : Option RenderSt :=
  displayLoop fuel { items := items, sticky := false } { layers := [], layerOrder := [], outputLines := 0 }

/-! ### Registry auth encoding (`RunGhcrContainer`, lines 276-305) -/

/-- Default username for ghcr.io (`const ghcrUsername = "USERNAME"`). -/
def ghcrUsername : String := "USERNAME"

def hexDigitChar (n : Nat) : Char :=
  if n = 0 then '0' else if n = 1 then '1' else if n = 2 then '2' else if n = 3 then '3'
  else if n = 4 then '4' else if n = 5 then '5' else if n = 6 then '6' else if n = 7 then '7'
  else if n = 8 then '8' else if n = 9 then '9' else if n = 10 then 'a' else if n = 11 then 'b'
  else if n = 12 then 'c' else if n = 13 then 'd' else if n = 14 then 'e' else 'f'

/-- `encoding/json` string escaping with the default HTML escaping that
`json.Marshal` applies. -/
def jsonEscapeChar (c : Char) : List Char :=
  if c = '"' then ['\\', '"']
  else if c = '\\' then ['\\', '\\']
  else if c = '\n' then ['\\', 'n']
  else if c = '\r' then ['\\', 'r']
  else if c = '\t' then ['\\', 't']
  else if c = '<' then "\\u003c".data
  else if c = '>' then "\\u003e".data
  else if c = '&' then "\\u0026".data
  else if c.toNat < 32 then
    '\\' :: 'u' :: '0' :: '0' :: [hexDigitChar (c.toNat / 16), hexDigitChar (c.toNat % 16)]
  else if c.toNat = 8232 then "\\u2028".data
  else if c.toNat = 8233 then "\\u2029".data
  else [c]

def jsonStringLit (s : String) : String :=
  ⟨'"' :: (s.data.flatMap jsonEscapeChar) ++ ['"']⟩

/-- `json.Marshal(registry.AuthConfig{Username: u, Password: p})`: the other
fields are zero and carry `omitempty`, so only these two are emitted. -/
def authConfigJSON (u p : String) : String :=
  "\x7b\"username\":" ++ jsonStringLit u ++ ",\"password\":" ++ jsonStringLit p ++ "\x7d"

/-- UTF-8 encoding of one character, as the bytes of a Go string. -/
def utf8EncodeChar (c : Char) : List Nat :=
  let n := c.toNat
  if n < 128 then [n]
  else if n < 2048 then [192 + n / 64, 128 + n % 64]
  else if n < 65536 then [224 + n / 4096, 128 + (n / 64) % 64, 128 + n % 64]
  else [240 + n / 262144, 128 + (n / 4096) % 64, 128 + (n / 64) % 64, 128 + n % 64]

def utf8Bytes (s : String) : List Nat := s.data.flatMap utf8EncodeChar

/-- The alphabet of `base64.URLEncoding`. -/
def base64urlAlphabet : List Char :=
  "ABCDEFGHIJKLMNOPQRSTUVWXYZabcdefghijklmnopqrstuvwxyz0123456789-_".data

def base64urlDigit (n : Nat) : Char := base64urlAlphabet.getD n '?'

/-- `base64.URLEncoding.EncodeToString` (padded URL-safe base64). -/
def base64url : List Nat → List Char
  | [] => []
  | [a] => [base64urlDigit (a / 4), base64urlDigit (a % 4 * 16), '=', '=']
  | [a, b] => [base64urlDigit (a / 4), base64urlDigit (a % 4 * 16 + b / 16),
               base64urlDigit (b % 16 * 4), '=']
  | a :: b :: c :: rest =>
    base64urlDigit (a / 4) :: base64urlDigit (a % 4 * 16 + b / 16) ::
    base64urlDigit (b % 16 * 4 + c / 64) :: base64urlDigit (c % 64) :: base64url rest

/-- The pull-request auth header: URL-safe base64 of the marshalled
`registry.AuthConfig`. -/
def encodeAuth (username password : String) : String :=
  ⟨base64url (utf8Bytes (authConfigJSON username password))⟩

/-- `strings.HasPrefix`. -/
def goHasPre (s pre : String) : Bool := pre.data.isPrefixOf s.data

/-- The `if password != "" { options = ... }` step: an auth header is attached
exactly when a credential is present. -/
def mkAuthOption (password : String) : Option String :=
  if password ≠ "" then some (encodeAuth ghcrUsername password) else none

/-! ### The task runner `RunGhcrContainer` (`internal/container_run`)

The runner is embedded as a function from a `TaskSpec` (the caller-supplied
arguments) and a `RunEnv` (the outcome of every external call the runner can
make) to a `RunTrace`: the ordered list of daemon/filesystem operations that
were invoked, and how the function ended.  A `logrus.Fatalf` call site maps to
`Outcome.fatalExit` with a structured reason; since `Fatalf` ends in
`os.Exit(1)`, a fatal exit appends no deferred actions.  A normal return
appends the registered deferred actions in LIFO order. -/

structure TaskSpec where
  taskName : String
  imageLink : String
  flags : List String
  envCont : List String
  copyToContainer : List (String × String)
  copyFromContainer : List (String × String)
  deriving DecidableEq, Repr

inductive WaitOutcome where
  /-- `errCh` delivered first; its value may itself be nil. -/
  | errSignal (e : Option String)
  /-- `statusCh` delivered first, carrying the exit code. -/
  | status (code : Int)
  deriving DecidableEq, Repr

structure RunEnv where
  /-- `globals.GithubDockerHost`. -/
  ghHost : String
  /-- Host paths for which `os.Stat` succeeds before the run. -/
  existingHostPaths : List String
  clientInitErr : Option String
  /-- `globals.Config.Github.Token`. -/
  githubToken : String
  dockerCfgLoadErr : Option String
  /-- `cfg.GetAuthConfig(host).Password` (empty when the store has none). -/
  storedPassword : String
  imagePullErr : Option String
  imageInspectErr : Option String
  createErr : Option String
  copyToFails : List (String × String)
  startErr : Option String
  waitOutcome : WaitOutcome
  postInspectErr : Option String
  startedAtParseOk : Bool
  finishedAtParseOk : Bool
  logsErr : Option String
  stdCopyErr : Option String
  copyFromFails : List (String × String)
  stopErr : Option String
  removeErr : Option String
  deriving DecidableEq, Repr

inductive Act where
  | statCheck (path : String)
  | clientInit
  | loadDockerConfig
  | imagePull (authHeader : Option String)
  | drainPullStream
  | imageInspect
  | containerCreate
  | copyToContainer (src dst : String)
  | containerStart
  | containerWait
  | postInspect
  | containerLogs
  | stdCopyLogs
  | copyFromContainer (src dst : String)
  | containerStop
  | containerRemove
  | containerKill
  | closeLogReader
  | closePullReader
  | closeClient
  deriving DecidableEq, Repr

/-- One structured reason per `logrus.Fatalf` call site in `RunGhcrContainer`. -/
inductive FatalReason where
  | statConflict (path : String)
  | clientInit (e : String)
  | dockerCfgLoad (e : String)
  | imageUse (e : String)
  | create (e : String)
  | copyTo (src dst : String)
  | start (e : String)
  | waitErr (e : String)
  | postInspect (e : String)
  | parseStart
  | parseFinish
  | stdCopy (e : String)
  | nonZeroExit (code : Int)
  | copyFrom (src dst : String)
  | stop (e : String)
  | remove (e : String)
  deriving DecidableEq, Repr

inductive Outcome where
  /-- `logrus.Fatalf`: `os.Exit(1)`, deferred functions do not run. -/
  | fatalExit (r : FatalReason)
  /-- the function returned; deferred functions ran. -/
  | returned
  deriving DecidableEq, Repr

structure RunTrace where
  actions : List Act
  outcome : Outcome
  deriving DecidableEq, Repr

def prependActs (acts : List Act) (t : RunTrace) : RunTrace :=
  { t with actions := acts ++ t.actions }

/-- Lines 448-458: `ContainerStop` then `ContainerRemove`, each fatal on
error; on success the function ends and the deferred actions run. -/
def runStop (env : RunEnv) (defers : List Act) : RunTrace :=
  match env.stopErr with
  | some e => { actions := [.containerStop], outcome := .fatalExit (.stop e) }
  | none =>
    match env.removeErr with
    | some e => { actions := [.containerStop, .containerRemove], outcome := .fatalExit (.remove e) }
    | none => { actions := [.containerStop, .containerRemove] ++ defers, outcome := .returned }

/-- Lines 436-446: the output-collection loop; `CopyFileFromContainer` fails
when the host destination exists or the copy/extract fails, and any failure is
fatal. -/
def runCopyFrom (env : RunEnv) (defers : List Act) :
    List (String × String) → RunTrace
  | [] => runStop env defers
  | (src, dst) :: rest =>
    prependActs [.copyFromContainer src dst] <|
      if dst ∈ env.existingHostPaths ∨ (src, dst) ∈ env.copyFromFails then
        { actions := [], outcome := .fatalExit (.copyFrom src dst) }
      else runCopyFrom env defers rest

/-- Lines 374-434: the wait race and the status branch (post-run inspect,
timestamp parsing, log collection, non-zero-exit check).  Note the early
`return` when `ContainerLogs` itself fails: the deferred actions run but
nothing after the log fetch does. -/
def runWait (env : RunEnv) (spec : TaskSpec) (defers : List Act) : RunTrace :=
  prependActs [.containerWait] <|
    match env.waitOutcome with
    | .errSignal (some e) => { actions := [], outcome := .fatalExit (.waitErr e) }
    | .errSignal none => runCopyFrom env defers spec.copyFromContainer
    | .status code =>
      prependActs [.postInspect] <|
        match env.postInspectErr with
        | some e => { actions := [], outcome := .fatalExit (.postInspect e) }
        | none =>
          if !env.startedAtParseOk then { actions := [], outcome := .fatalExit .parseStart }
          else if !env.finishedAtParseOk then { actions := [], outcome := .fatalExit .parseFinish }
          else
            prependActs [.containerLogs] <|
              let defers := Act.closeLogReader :: defers
              match env.logsErr with
              | some _ => { actions := defers, outcome := .returned }
              | none =>
                prependActs [.stdCopyLogs] <|
                  match env.stdCopyErr with
                  | some e => { actions := [], outcome := .fatalExit (.stdCopy e) }
                  | none =>
                    if code ≠ 0 then { actions := [], outcome := .fatalExit (.nonZeroExit code) }
                    else runCopyFrom env defers spec.copyFromContainer

/-- Lines 366-372: `ContainerStart`, fatal on error; on success the
best-effort `ContainerKill` is deferred. -/
def runStart (env : RunEnv) (spec : TaskSpec) (defers : List Act) : RunTrace :=
  prependActs [.containerStart] <|
    match env.startErr with
    | some e => { actions := [], outcome := .fatalExit (.start e) }
    | none => runWait env spec (Act.containerKill :: defers)

/-- Lines 356-364: the input-staging loop; any `CopyToContainer` failure is
fatal. -/
def runCopyTo (env : RunEnv) (spec : TaskSpec) (defers : List Act) :
    List (String × String) → RunTrace
  | [] => runStart env spec defers
  | (src, dst) :: rest =>
    prependActs [.copyToContainer src dst] <|
      if (src, dst) ∈ env.copyToFails then
        { actions := [], outcome := .fatalExit (.copyTo src dst) }
      else runCopyTo env spec defers rest

/-- Lines 347-350: `ContainerCreate`, fatal on error. -/
def runCreate (env : RunEnv) (spec : TaskSpec) (defers : List Act) : RunTrace :=
  prependActs [.containerCreate] <|
    match env.createErr with
    | some e => { actions := [], outcome := .fatalExit (.create e) }
    | none => runCopyTo env spec defers spec.copyToContainer

/-- Lines 324-330: the error used when `ImageInspect` fails: the pull error
when a pull error exists, the inspect error otherwise; no error when the
inspect succeeded. -/
def imageUseError (imagePullErr inspectErr : Option String) : Option String :=
  match inspectErr with
  | some e =>
    match imagePullErr with
    | some pe => some pe
    | none => some e
  | none => none

/-- Lines 307-345: `ImagePull` (whose progress stream is drained and whose
reader close is deferred only when the pull succeeded), then `ImageInspect`
with `imageUseError` deciding fatality. -/
def runAcquire (env : RunEnv) (spec : TaskSpec) (defers : List Act)
    (auth : Option String) : RunTrace :=
  let pullActs :=
    if env.imagePullErr = none then [Act.imagePull auth, Act.drainPullStream]
    else [Act.imagePull auth]
  let defers :=
    if env.imagePullErr = none then Act.closePullReader :: defers else defers
  prependActs (pullActs ++ [Act.imageInspect]) <|
    match imageUseError env.imagePullErr env.imageInspectErr with
    | some e => { actions := [], outcome := .fatalExit (.imageUse e) }
    | none => runCreate env spec defers

/-- Lines 274-305: credential resolution for a ghcr-hosted image: the explicit
token when non-empty, otherwise the password stored in the local Docker
credential store (whose load is fatal on error); the header is attached only
when the resulting password is non-empty. -/
def runAuth (env : RunEnv) (spec : TaskSpec) (defers : List Act) : RunTrace :=
  if goHasPre spec.imageLink env.ghHost then
    let password := env.githubToken
    if password = "" then
      prependActs [.loadDockerConfig] <|
        match env.dockerCfgLoadErr with
        | some e => { actions := [], outcome := .fatalExit (.dockerCfgLoad e) }
        | none => runAcquire env spec defers (mkAuthOption env.storedPassword)
    else runAcquire env spec defers (mkAuthOption password)
  else runAcquire env spec defers none

/-- Lines 265-272: client creation, fatal on error; its close is deferred. -/
def runClient (env : RunEnv) (spec : TaskSpec) : RunTrace :=
  prependActs [.clientInit] <|
    match env.clientInitErr with
    | some e => { actions := [], outcome := .fatalExit (.clientInit e) }
    | none => runAuth env spec [Act.closeClient]

/-- Lines 259-263: the preflight loop over every output-mapping destination:
`os.Stat` succeeding (the path exists) is fatal. -/
def statPhase (existing : List String) :
    List (String × String) → List Act × Option FatalReason
  | [] => ([], none)
  | (_, dst) :: rest =>
    if dst ∈ existing then ([.statCheck dst], some (.statConflict dst))
    else
      let (acts, r) := statPhase existing rest
      (.statCheck dst :: acts, r)

/-- `RunGhcrContainer`: preflight, then the rest of the pipeline. -/
def runGhcr (env : RunEnv) (spec : TaskSpec) : RunTrace :=
  match statPhase env.existingHostPaths spec.copyFromContainer with
  | (acts, some r) => { actions := acts, outcome := .fatalExit r }
  | (acts, none) => prependActs acts (runClient env spec)

/-! ### Theorems: archive extraction (C7, C8) -/

theorem isPrefixOf_append_self (p t : List Char) : p.isPrefixOf (p ++ t) = true := by
  induction p with
  | nil => simp [List.isPrefixOf]
  | cons a p ih => simp [List.isPrefixOf, ih]

theorem trimPrefixStr_append (p t : GoStr) : trimPrefixStr (p ++ t) p = t := by
  simp [trimPrefixStr, isPrefixOf_append_self, List.drop_left]

/-- C8: tar extraction path rebasing — for an entry whose name is `basePath`
followed by a separator and a relative path, the `basePath` prefix and the one
following separator are stripped; with `isSourceDir = true` the entry is
written at `destPath` joined with the stripped relative path, and with
`isSourceDir = false` the entry is written directly at `destPath`. -/
theorem c8_path_rebasing (basePath rel destPath name : GoStr) :
    relPathOf (basePath ++ sepChar :: rel) basePath = rel
    ∧ entryTarget (basePath ++ sepChar :: rel) basePath destPath true = filepathJoin destPath rel
    ∧ entryTarget name basePath destPath false = destPath := by
  have h1 : trimPrefixStr (basePath ++ sepChar :: rel) basePath = sepChar :: rel :=
    trimPrefixStr_append basePath (sepChar :: rel)
  have h2 : trimPrefixStr (sepChar :: rel) [sepChar] = rel := trimPrefixStr_append [sepChar] rel
  have hrel : relPathOf (basePath ++ sepChar :: rel) basePath = rel := by
    simp [relPathOf, h1, h2]
  exact ⟨hrel, by simp [entryTarget, hrel], by simp [entryTarget]⟩

theorem fsWrites_append (a b : List FsAction) : fsWrites (a ++ b) = fsWrites a ++ fsWrites b := by
  simp [fsWrites, List.filter_append]

theorem extractStep_unsupported (fs : FsEnv) (basePath destPath : GoStr) (isDir : Bool)
    (u : TarEntry) (h : u.hdr.typeflag ≠ tarTypeDir ∧ u.hdr.typeflag ≠ tarTypeReg
      ∧ u.hdr.typeflag ≠ tarTypeSymlink) :
    ∃ acts, extractStep fs basePath destPath isDir u = .ok acts ∧ fsWrites acts = [] := by
  unfold extractStep
  rw [if_neg h.1, if_neg h.2.1, if_neg h.2.2]
  by_cases hg : u.hdr.typeflag = tarTypeXGlobalHeader
  · exact ⟨[.skipGlobalHeader], by rw [if_pos hg], by simp [fsWrites, isSkipAction]⟩
  · exact ⟨[.skipUnsupported u.hdr.typeflag u.hdr.name], by rw [if_neg hg],
      by simp [fsWrites, isSkipAction]⟩

/-- C7: tar extraction tolerates unsupported entry types — inserting an entry
whose type is not directory, regular file, or symlink (for example a
`TypeXGlobalHeader` entry) anywhere in the stream changes neither the
error/success result of the extraction nor the filesystem writes performed, so
it is skipped without aborting; in particular a `TypeXGlobalHeader` entry
followed by a regular-file entry extracts the regular file and returns no
error. -/
theorem c7_unsupported_skipped (fs : FsEnv) (basePath destPath : GoStr) (isDir : Bool)
    (u : TarEntry) (pre post : List TarEntry) (rerr : Option GoStr)
    (h : u.hdr.typeflag ≠ tarTypeDir ∧ u.hdr.typeflag ≠ tarTypeReg
      ∧ u.hdr.typeflag ≠ tarTypeSymlink) :
    exceptMapOk fsWrites (extractTar fs basePath destPath isDir (pre ++ u :: post) rerr)
      = exceptMapOk fsWrites (extractTar fs basePath destPath isDir (pre ++ post) rerr) := by
  induction pre with
  | nil =>
    obtain ⟨acts, hstep, hw⟩ := extractStep_unsupported fs basePath destPath isDir u h
    simp only [List.nil_append]
    rw [extractTar, hstep]
    cases hrec : extractTar fs basePath destPath isDir post rerr with
    | error e => simp [exceptMapOk, Except.map]
    | ok l => simp [exceptMapOk, Except.map, fsWrites_append, hw]
  | cons e pre ih =>
    simp only [List.cons_append]
    rw [extractTar, extractTar]
    cases hstep : extractStep fs basePath destPath isDir e with
    | error m => simp [exceptMapOk]
    | ok a =>
      cases h1 : extractTar fs basePath destPath isDir (pre ++ u :: post) rerr with
      | error m =>
        rw [h1] at ih
        cases h2 : extractTar fs basePath destPath isDir (pre ++ post) rerr with
        | error m' =>
          rw [h2] at ih
          simp [exceptMapOk] at ih
          simp [exceptMapOk, Except.map, ih]
        | ok l =>
          rw [h2] at ih
          simp [exceptMapOk] at ih
      | ok l =>
        rw [h1] at ih
        cases h2 : extractTar fs basePath destPath isDir (pre ++ post) rerr with
        | error m' =>
          rw [h2] at ih
          simp [exceptMapOk] at ih
        | ok l' =>
          rw [h2] at ih
          simp only [exceptMapOk, Except.ok.injEq] at ih
          simp [exceptMapOk, Except.map, fsWrites_append, ih]

def fsOkEnv : FsEnv := ⟨[], [], [], []⟩

def ghEntry : TarEntry :=
  { hdr := { name := [], typeflag := 'g', mode := 0, linkname := [] }, content := [] }

def regEntry : TarEntry :=
  { hdr := { name := "out".data ++ ['/'] ++ "report.sarif".data, typeflag := '0',
             mode := 420, linkname := [] }, content := [1, 2, 3] }

theorem c7_witness :
    (ghEntry.hdr.typeflag ≠ tarTypeDir ∧ ghEntry.hdr.typeflag ≠ tarTypeReg
      ∧ ghEntry.hdr.typeflag ≠ tarTypeSymlink)
    ∧ exceptMapOk fsWrites
        (extractTar fsOkEnv ("out".data) ("/host/out".data) true ([] ++ ghEntry :: [regEntry]) none)
      = exceptMapOk fsWrites
        (extractTar fsOkEnv ("out".data) ("/host/out".data) true ([] ++ [regEntry]) none)
    ∧ (extractTar fsOkEnv ("out".data) ("/host/out".data) true [ghEntry, regEntry] none).isOk
      = true :=
  ⟨by decide,
   c7_unsupported_skipped fsOkEnv ("out".data) ("/host/out".data) true ghEntry [] [regEntry]
     none (by decide),
   by decide⟩

/-! ### Theorems: pull-progress rendering loop (C10) -/

theorem displayLoop_sticky (n : Nat) (st : DecState) (rs : RenderSt) (h : st.sticky = true) :
    displayLoop n st rs = none := by
  induction n generalizing rs with
  | zero => rfl
  | succ k ih => simp [displayLoop, decodeNext, h, ih]

theorem displayLoop_syntaxErr (pre : List ProgressMsg) (post : List DecodeItem) :
    ∀ (fuel : Nat) (rs : RenderSt),
      displayLoop fuel
        { items := pre.map DecodeItem.ok ++ DecodeItem.syntaxErr :: post, sticky := false } rs
        = none := by
  induction pre with
  | nil =>
    intro fuel rs
    cases fuel with
    | zero => rfl
    | succ k =>
      simp only [List.map_nil, List.nil_append, displayLoop, decodeNext, Bool.false_eq_true,
        if_false]
      exact displayLoop_sticky k _ _ rfl
  | cons m pre ih =>
    intro fuel rs
    cases fuel with
    | zero => rfl
    | succ k =>
      simp only [List.map_cons, List.cons_append, displayLoop, decodeNext, Bool.false_eq_true,
        if_false]
      exact ih k _

/-- C10: the pull-progress rendering loop does NOT terminate on every finite
input stream — once the stream contains malformed, non-JSON-decodable bytes
(a decoder syntax error), `json.Decoder` stores that error and returns it from
every subsequent `Decode` call, so the `continue` branch loops forever and the
loop never reaches end-of-stream, for any amount of fuel. -/
theorem c10_progress_nontermination (fuel : Nat) (pre : List ProgressMsg)
    (post : List DecodeItem) :
    displayInteractiveProgress fuel (pre.map DecodeItem.ok ++ DecodeItem.syntaxErr :: post)
      = none := by
  unfold displayInteractiveProgress
  exact displayLoop_syntaxErr pre post fuel _

/-! ### Concrete runs used as counterexamples / failing inputs -/

/-- A small task: one input mapping and one output mapping, non-ghcr image. -/
def specA : TaskSpec :=
  { taskName := "Scan", imageLink := "example.test/analyzer:v1", flags := [], envCont := [],
    copyToContainer := [("/host/in", "/data/in")],
    copyFromContainer := [("/data/out", "/host/out")] }

/-- An environment in which every external call succeeds and the container
exits with status 0. -/
def okEnv : RunEnv :=
  { ghHost := "ghcr.io", existingHostPaths := [], clientInitErr := none, githubToken := "",
    dockerCfgLoadErr := none, storedPassword := "", imagePullErr := none,
    imageInspectErr := none, createErr := none, copyToFails := [], startErr := none,
    waitOutcome := .status 0, postInspectErr := none, startedAtParseOk := true,
    finishedAtParseOk := true, logsErr := none, stdCopyErr := none, copyFromFails := [],
    stopErr := none, removeErr := none }

def envC1 : RunEnv := { okEnv with waitOutcome := .status 3 }

/-- C1 (counterexample): a run in which the container was created and the
Wait step resolved with exit status 3 — the runner exits the process fatally
(`logrus.Fatalf` calls `os.Exit`, skipping deferred functions) and `Stop` and
`Remove` are never invoked, contradicting the claim that they are always
invoked after `Wait` resolves even on a non-zero exit code. -/
theorem c1_counterexample :
    (runGhcr envC1 specA).outcome = Outcome.fatalExit (FatalReason.nonZeroExit 3)
    ∧ Act.containerCreate ∈ (runGhcr envC1 specA).actions
    ∧ Act.containerWait ∈ (runGhcr envC1 specA).actions
    ∧ Act.containerStop ∉ (runGhcr envC1 specA).actions
    ∧ Act.containerRemove ∉ (runGhcr envC1 specA).actions := by decide

def envC2 : RunEnv := { okEnv with waitOutcome := .errSignal (some "unexpected EOF") }

/-- C2: a run in which the container started successfully and `Wait` then
returned a non-nil error — the runner exits the process via `logrus.Fatalf`
(`os.Exit` runs no deferred functions), so the deferred best-effort
`ContainerKill` never fires and `Stop`/`Remove` are never attempted: the
started container is orphaned on this exit path. -/
theorem c2_wait_error_orphans_container :
    (runGhcr envC2 specA).outcome = Outcome.fatalExit (FatalReason.waitErr "unexpected EOF")
    ∧ Act.containerStart ∈ (runGhcr envC2 specA).actions
    ∧ Act.containerKill ∉ (runGhcr envC2 specA).actions
    ∧ Act.containerStop ∉ (runGhcr envC2 specA).actions
    ∧ Act.containerRemove ∉ (runGhcr envC2 specA).actions := by decide

/-- C4 (counterexample): it is not true that acquisition fails only when both
the pull and the inspect fail — with no pull error and a failing inspect the
acquisition fails (with the inspect error), refuting the universally
quantified claim. -/
theorem c4_counterexample :
    ¬ (∀ pullErr inspectErr : Option String,
        (imageUseError pullErr inspectErr).isSome = true →
          pullErr.isSome = true ∧ inspectErr.isSome = true) := by
  intro h
  exact absurd (h none (some "no such image") (by decide)).1 (by decide)

def envC5 : RunEnv := { okEnv with waitOutcome := .status 3, logsErr := some "log api error" }

/-- C5 (counterexample): a run whose container exited with status 3 but whose
log fetch (`ContainerLogs`) failed — the runner takes the early `return`
branch and finishes without any fatal error, so no fatal error carrying the
exit code 3 is ever reported, contradicting the claim that the non-zero exit
code is reported regardless of log-collection failure. -/
theorem c5_counterexample :
    envC5.waitOutcome = WaitOutcome.status 3
    ∧ (runGhcr envC5 specA).outcome = Outcome.returned := by decide

def envC6 : RunEnv := { okEnv with stdCopyErr := some "stdcopy corrupt" }

/-- C6 (counterexample): a run in which reassembling the combined
stdout+stderr stream (`stdcopy.StdCopy`) failed — the failure is fatal
(`logrus.Fatalf`), not merely logged at low severity, and the run does not
proceed to output collection, Stop, or Remove, contradicting the claim that a
log-collection failure is non-fatal. -/
theorem c6_counterexample :
    (runGhcr envC6 specA).outcome = Outcome.fatalExit (FatalReason.stdCopy "stdcopy corrupt")
    ∧ Act.copyFromContainer "/data/out" "/host/out" ∉ (runGhcr envC6 specA).actions
    ∧ Act.containerStop ∉ (runGhcr envC6 specA).actions
    ∧ Act.containerRemove ∉ (runGhcr envC6 specA).actions := by decide

/-! ### Trace-decomposition lemmas for the runner -/

@[simp] theorem prependActs_actions (acts : List Act) (t : RunTrace) :
    (prependActs acts t).actions = acts ++ t.actions := rfl

@[simp] theorem prependActs_outcome (acts : List Act) (t : RunTrace) :
    (prependActs acts t).outcome = t.outcome := rfl

@[simp] theorem prependActs_nil (t : RunTrace) : prependActs [] t = t := by
  simp [prependActs]

theorem prependActs_prependActs (a b : List Act) (t : RunTrace) :
    prependActs a (prependActs b t) = prependActs (a ++ b) t := by
  simp [prependActs]

/-- Kinds of actions a run can have performed before `ContainerCreate`. -/
def acquirePhaseAct (a : Act) : Prop :=
  (∃ d, a = Act.statCheck d) ∨ a = Act.clientInit ∨ a = Act.loadDockerConfig
  ∨ (∃ hh, a = Act.imagePull hh) ∨ a = Act.drainPullStream ∨ a = Act.imageInspect

/-- Kinds of actions a run can have performed before `ContainerWait`. -/
def stagePhaseAct (a : Act) : Prop :=
  acquirePhaseAct a ∨ a = Act.containerCreate ∨ (∃ s d, a = Act.copyToContainer s d)
  ∨ a = Act.containerStart

theorem stagePhaseAct_ne (a : Act) (h : stagePhaseAct a) :
    a ≠ Act.containerStop ∧ a ≠ Act.containerRemove ∧ a ≠ Act.containerKill
    ∧ ∀ s d, a ≠ Act.copyFromContainer s d := by
  rcases h with (⟨d, rfl⟩ | rfl | rfl | ⟨hh, rfl⟩ | rfl | rfl) | rfl | ⟨s, d, rfl⟩ | rfl <;> simp

theorem statPhase_ok (ex : List String) (l : List (String × String))
    (h : ∀ p ∈ l, p.2 ∉ ex) :
    statPhase ex l = (l.map fun p => Act.statCheck p.2, none) := by
  induction l with
  | nil => rfl
  | cons p rest ih =>
    obtain ⟨src, dst⟩ := p
    have h1 : dst ∉ ex := h (src, dst) (List.mem_cons_self _ _)
    have h2 : ∀ q ∈ rest, q.2 ∉ ex := fun q hq => h q (List.mem_cons_of_mem _ hq)
    simp only [statPhase, ih h2]
    rw [if_neg h1]
    simp

theorem statPhase_conflict (ex : List String) (l : List (String × String))
    (h : ∃ p ∈ l, p.2 ∈ ex) :
    ∃ acts d, statPhase ex l = (acts, some (.statConflict d))
      ∧ ∀ a ∈ acts, ∃ d', a = Act.statCheck d' := by
  induction l with
  | nil => simp at h
  | cons p rest ih =>
    obtain ⟨src, dst⟩ := p
    by_cases hd : dst ∈ ex
    · refine ⟨[Act.statCheck dst], dst, ?_, ?_⟩
      · simp only [statPhase]
        rw [if_pos hd]
      · intro a ha
        simp only [List.mem_singleton] at ha
        exact ⟨dst, ha⟩
    · have h' : ∃ q ∈ rest, q.2 ∈ ex := by
        rcases h with ⟨q, hq, hq2⟩
        rcases List.mem_cons.1 hq with rfl | hmem
        · exact absurd hq2 hd
        · exact ⟨q, hmem, hq2⟩
      obtain ⟨acts, d, heq, hall⟩ := ih h'
      refine ⟨Act.statCheck dst :: acts, d, ?_, ?_⟩
      · simp only [statPhase]
        rw [if_neg hd, heq]
      · rintro a ha
        rcases List.mem_cons.1 ha with rfl | hmem
        · exact ⟨dst, rfl⟩
        · exact hall a hmem

theorem runAuth_ok (env : RunEnv) (spec : TaskSpec) (defers : List Act)
    (h3 : env.dockerCfgLoadErr = none) :
    ∃ pre auth, runAuth env spec defers = prependActs pre (runAcquire env spec defers auth)
      ∧ ∀ a ∈ pre, a = Act.loadDockerConfig := by
  cases hpre : goHasPre spec.imageLink env.ghHost
  · refine ⟨[], none, ?_, by simp⟩
    simp [runAuth, hpre]
  · by_cases ht : env.githubToken = ""
    · refine ⟨[Act.loadDockerConfig], mkAuthOption env.storedPassword, ?_, by simp⟩
      simp [runAuth, hpre, ht, h3]
    · refine ⟨[], mkAuthOption env.githubToken, ?_, by simp⟩
      simp [runAuth, hpre, ht]

theorem runAcquire_ok (env : RunEnv) (spec : TaskSpec) (defers : List Act) (auth : Option String)
    (h5 : env.imageInspectErr = none) :
    ∃ pre defers', runAcquire env spec defers auth = prependActs pre (runCreate env spec defers')
      ∧ Act.imagePull auth ∈ pre
      ∧ (∀ a ∈ pre, (∃ hh, a = Act.imagePull hh) ∨ a = Act.drainPullStream ∨ a = Act.imageInspect)
      ∧ (∀ a ∈ defers', a = Act.closePullReader ∨ a ∈ defers) := by
  have him : ∀ p, imageUseError p env.imageInspectErr = none := by
    intro p
    rw [h5]
    rfl
  by_cases hp : env.imagePullErr = none
  · refine ⟨[Act.imagePull auth, Act.drainPullStream, Act.imageInspect],
      Act.closePullReader :: defers, ?_, by simp, ?_, ?_⟩
    · simp [runAcquire, hp, him]
    · intro a ha
      rcases List.mem_cons.1 ha with rfl | ha
      · exact Or.inl ⟨auth, rfl⟩
      rcases List.mem_cons.1 ha with rfl | ha
      · exact Or.inr (Or.inl rfl)
      rcases List.mem_cons.1 ha with rfl | ha
      · exact Or.inr (Or.inr rfl)
      · simp at ha
    · intro a ha
      rcases List.mem_cons.1 ha with rfl | ha
      · exact Or.inl rfl
      · exact Or.inr ha
  · refine ⟨[Act.imagePull auth, Act.imageInspect], defers, ?_, by simp, ?_, fun a ha => Or.inr ha⟩
    · simp [runAcquire, hp, him]
    · intro a ha
      rcases List.mem_cons.1 ha with rfl | ha
      · exact Or.inl ⟨auth, rfl⟩
      rcases List.mem_cons.1 ha with rfl | ha
      · exact Or.inr (Or.inr rfl)
      · simp at ha

theorem runCopyTo_ok (env : RunEnv) (spec : TaskSpec) (defers : List Act)
    (l : List (String × String)) (h : ∀ p ∈ l, p ∉ env.copyToFails) :
    runCopyTo env spec defers l
      = prependActs (l.map fun p => Act.copyToContainer p.1 p.2) (runStart env spec defers) := by
  induction l with
  | nil => simp [runCopyTo]
  | cons p rest ih =>
    obtain ⟨s, d⟩ := p
    have hp : (s, d) ∉ env.copyToFails := h (s, d) (List.mem_cons_self _ _)
    have hr := ih fun q hq => h q (List.mem_cons_of_mem _ hq)
    simp only [runCopyTo]
    rw [if_neg hp, hr, prependActs_prependActs]
    simp

theorem runCopyFrom_ok (env : RunEnv) (defers : List Act)
    (l : List (String × String))
    (h : ∀ p ∈ l, p.2 ∉ env.existingHostPaths ∧ p ∉ env.copyFromFails) :
    runCopyFrom env defers l
      = prependActs (l.map fun p => Act.copyFromContainer p.1 p.2) (runStop env defers) := by
  induction l with
  | nil => simp [runCopyFrom]
  | cons p rest ih =>
    obtain ⟨s, d⟩ := p
    have hp : ¬(d ∈ env.existingHostPaths ∨ (s, d) ∈ env.copyFromFails) := by
      have := h (s, d) (List.mem_cons_self _ _)
      simp only [not_or]
      exact ⟨this.1, this.2⟩
    have hr := ih fun q hq => h q (List.mem_cons_of_mem _ hq)
    simp only [runCopyFrom]
    rw [if_neg hp, hr, prependActs_prependActs]
    simp

theorem run_reaches_create (env : RunEnv) (spec : TaskSpec)
    (h1 : ∀ p ∈ spec.copyFromContainer, p.2 ∉ env.existingHostPaths)
    (h2 : env.clientInitErr = none)
    (h3 : env.dockerCfgLoadErr = none)
    (h5 : env.imageInspectErr = none) :
    ∃ big defers',
      runGhcr env spec = prependActs big (runCreate env spec defers')
      ∧ (∀ a ∈ big, acquirePhaseAct a)
      ∧ (∀ a ∈ defers', a = Act.closePullReader ∨ a = Act.closeClient) := by
  obtain ⟨preAuth, auth, eAuth, hAuth⟩ := runAuth_ok env spec [Act.closeClient] h3
  obtain ⟨prePull, defers', eAcq, _, hPullKinds, hDef⟩ :=
    runAcquire_ok env spec [Act.closeClient] auth h5
  have e0 : runGhcr env spec
      = prependActs (spec.copyFromContainer.map fun p => Act.statCheck p.2)
          (runClient env spec) := by
    unfold runGhcr
    rw [statPhase_ok env.existingHostPaths spec.copyFromContainer h1]
  have e1 : runClient env spec
      = prependActs [Act.clientInit] (runAuth env spec [Act.closeClient]) := by
    unfold runClient
    rw [h2]
  refine ⟨(spec.copyFromContainer.map fun p => Act.statCheck p.2)
      ++ Act.clientInit :: (preAuth ++ prePull), defers', ?_, ?_, ?_⟩
  · rw [e0, e1, eAuth, eAcq, prependActs_prependActs, prependActs_prependActs,
      prependActs_prependActs]
    simp
  · intro a ha
    rcases List.mem_append.1 ha with hstat | hrest
    · obtain ⟨p, _, rfl⟩ := List.mem_map.1 hstat
      exact Or.inl ⟨p.2, rfl⟩
    · rcases List.mem_cons.1 hrest with rfl | hrest2
      · exact Or.inr (Or.inl rfl)
      · rcases List.mem_append.1 hrest2 with hA | hP
        · rw [hAuth a hA]
          exact Or.inr (Or.inr (Or.inl rfl))
        · rcases hPullKinds a hP with ⟨hh, rfl⟩ | rfl | rfl
          · exact Or.inr (Or.inr (Or.inr (Or.inl ⟨hh, rfl⟩)))
          · exact Or.inr (Or.inr (Or.inr (Or.inr (Or.inl rfl))))
          · exact Or.inr (Or.inr (Or.inr (Or.inr (Or.inr rfl))))
  · intro a ha
    rcases hDef a ha with rfl | hmem
    · exact Or.inl rfl
    · simp only [List.mem_singleton] at hmem
      exact Or.inr hmem

theorem run_reaches_wait (env : RunEnv) (spec : TaskSpec)
    (h1 : ∀ p ∈ spec.copyFromContainer, p.2 ∉ env.existingHostPaths)
    (h2 : env.clientInitErr = none)
    (h3 : env.dockerCfgLoadErr = none)
    (h5 : env.imageInspectErr = none)
    (h6 : env.createErr = none)
    (h7 : ∀ p ∈ spec.copyToContainer, p ∉ env.copyToFails)
    (h8 : env.startErr = none) :
    ∃ big defers',
      runGhcr env spec = prependActs big (runWait env spec (Act.containerKill :: defers'))
      ∧ (∀ a ∈ big, stagePhaseAct a)
      ∧ (∀ a ∈ defers', a = Act.closePullReader ∨ a = Act.closeClient) := by
  obtain ⟨big, defers', e, hKinds, hDef⟩ := run_reaches_create env spec h1 h2 h3 h5
  have eC : runCreate env spec defers'
      = prependActs [Act.containerCreate] (runCopyTo env spec defers' spec.copyToContainer) := by
    unfold runCreate
    rw [h6]
  have eT := runCopyTo_ok env spec defers' spec.copyToContainer h7
  have eS : runStart env spec defers'
      = prependActs [Act.containerStart] (runWait env spec (Act.containerKill :: defers')) := by
    unfold runStart
    rw [h8]
  refine ⟨big ++ Act.containerCreate
      :: ((spec.copyToContainer.map fun p => Act.copyToContainer p.1 p.2)
        ++ [Act.containerStart]), defers', ?_, ?_, hDef⟩
  · rw [e, eC, eT, eS, prependActs_prependActs, prependActs_prependActs,
      prependActs_prependActs]
    simp
  · intro a ha
    rcases List.mem_append.1 ha with hbig | hrest
    · exact Or.inl (hKinds a hbig)
    · rcases List.mem_cons.1 hrest with rfl | hrest2
      · exact Or.inr (Or.inl rfl)
      · rcases List.mem_append.1 hrest2 with hT | hS
        · obtain ⟨p, _, rfl⟩ := List.mem_map.1 hT
          exact Or.inr (Or.inr (Or.inl ⟨p.1, p.2, rfl⟩))
        · simp only [List.mem_singleton] at hS
          exact Or.inr (Or.inr (Or.inr hS))

/-! ### Theorems: preflight no-clobber check (C3) -/

/-- C3: for every task, if some output-mapping host destination already exists
before the run, the runner exits fatally with a preflight-conflict error and
performs nothing but existence checks — in particular no client is created,
no image is pulled, and no container is created; and when no destination
exists, the existence check of every output-mapping destination is performed,
and all of them precede every other action of the run. -/
theorem c3_preflight_no_clobber (env : RunEnv) (spec : TaskSpec) :
    ((∃ p ∈ spec.copyFromContainer, p.2 ∈ env.existingHostPaths) →
      (∃ d, (runGhcr env spec).outcome = Outcome.fatalExit (FatalReason.statConflict d))
      ∧ ∀ a ∈ (runGhcr env spec).actions, ∃ d, a = Act.statCheck d)
    ∧ ((∀ p ∈ spec.copyFromContainer, p.2 ∉ env.existingHostPaths) →
      (runGhcr env spec).actions
        = (spec.copyFromContainer.map fun p => Act.statCheck p.2)
          ++ (runClient env spec).actions) := by
  constructor
  · intro h
    obtain ⟨acts, d, heq, hall⟩ :=
      statPhase_conflict env.existingHostPaths spec.copyFromContainer h
    have e : runGhcr env spec = { actions := acts, outcome := .fatalExit (.statConflict d) } := by
      unfold runGhcr
      rw [heq]
    rw [e]
    exact ⟨⟨d, rfl⟩, hall⟩
  · intro h
    have e : runGhcr env spec
        = prependActs (spec.copyFromContainer.map fun p => Act.statCheck p.2)
            (runClient env spec) := by
      unfold runGhcr
      rw [statPhase_ok env.existingHostPaths spec.copyFromContainer h]
    rw [e]
    rfl

def envC3 : RunEnv := { okEnv with existingHostPaths := ["/host/out"] }

theorem c3_witness :
    (∃ d, (runGhcr envC3 specA).outcome = Outcome.fatalExit (FatalReason.statConflict d))
    ∧ ∀ a ∈ (runGhcr envC3 specA).actions, ∃ d, a = Act.statCheck d :=
  (c3_preflight_no_clobber envC3 specA).1 ⟨("/data/out", "/host/out"), by decide, by decide⟩

/-! ### Theorems: image acquisition fallback (C4) -/

/-- C4 (amended): image acquisition fails exactly when the inspect fails —
a pull failure with a successful inspect succeeds using the locally cached
image (so the run still proceeds to `ContainerCreate`), and when acquisition
does fail the reported error is the pull error when a pull error exists,
falling back to the inspect error otherwise. -/
theorem c4_amended_acquire_fallback (env : RunEnv) (spec : TaskSpec) (pe ie : String)
    (h1 : ∀ p ∈ spec.copyFromContainer, p.2 ∉ env.existingHostPaths)
    (h2 : env.clientInitErr = none)
    (h3 : env.dockerCfgLoadErr = none)
    (h5 : env.imageInspectErr = none) :
    imageUseError (some pe) none = none
    ∧ imageUseError none (some ie) = some ie
    ∧ imageUseError (some pe) (some ie) = some pe
    ∧ Act.containerCreate ∈ (runGhcr env spec).actions := by
  refine ⟨rfl, rfl, rfl, ?_⟩
  obtain ⟨big, defers', e, _, _⟩ := run_reaches_create env spec h1 h2 h3 h5
  rw [e]
  simp only [prependActs_actions, List.mem_append]
  right
  cases hc : env.createErr <;> simp [runCreate, hc, prependActs]

def envC4 : RunEnv := { okEnv with imagePullErr := some "pull access denied" }

theorem c4_witness :
    imageUseError (some "pull access denied") none = none
    ∧ imageUseError none (some "no such image") = some "no such image"
    ∧ imageUseError (some "pull access denied") (some "no such image")
        = some "pull access denied"
    ∧ Act.containerCreate ∈ (runGhcr envC4 specA).actions :=
  c4_amended_acquire_fallback envC4 specA "pull access denied" "no such image"
    (by decide) rfl rfl rfl

/-! ### Theorems: the guaranteed-cleanup and exit-code claims (C1, C5, C6) -/

/-- C1 (amended): `Stop` then `Remove` are invoked (with the deferred kill
firing after them) only on fully successful runs — preflight passed, client,
config, inspect, create, staging and start succeeded, `Wait` delivered exit
status 0, log fetch and reassembly succeeded, and every output copy
succeeded; on any fatal error the process exits immediately via
`logrus.Fatalf`, skipping `Stop`/`Remove` and all deferred cleanup. -/
theorem c1_amended_stop_remove_on_success (env : RunEnv) (spec : TaskSpec)
    (h1 : ∀ p ∈ spec.copyFromContainer, p.2 ∉ env.existingHostPaths)
    (h2 : env.clientInitErr = none)
    (h3 : env.dockerCfgLoadErr = none)
    (h5 : env.imageInspectErr = none)
    (h6 : env.createErr = none)
    (h7 : ∀ p ∈ spec.copyToContainer, p ∉ env.copyToFails)
    (h8 : env.startErr = none)
    (h9 : env.waitOutcome = WaitOutcome.status 0)
    (h10 : env.postInspectErr = none)
    (h11 : env.startedAtParseOk = true)
    (h12 : env.finishedAtParseOk = true)
    (h13 : env.logsErr = none)
    (h14 : env.stdCopyErr = none)
    (h15 : ∀ p ∈ spec.copyFromContainer, p ∉ env.copyFromFails)
    (h16 : env.stopErr = none)
    (h17 : env.removeErr = none) :
    (runGhcr env spec).outcome = Outcome.returned
    ∧ [Act.containerStop, Act.containerRemove, Act.containerKill].Sublist
        (runGhcr env spec).actions := by
  obtain ⟨big, defers', e, _, _⟩ := run_reaches_wait env spec h1 h2 h3 h5 h6 h7 h8
  have eW : runWait env spec (Act.containerKill :: defers')
      = prependActs [Act.containerWait, Act.postInspect, Act.containerLogs, Act.stdCopyLogs]
          (runCopyFrom env (Act.closeLogReader :: Act.containerKill :: defers')
            spec.copyFromContainer) := by
    simp [runWait, h9, h10, h11, h12, h13, h14, prependActs_prependActs]
  have eF := runCopyFrom_ok env (Act.closeLogReader :: Act.containerKill :: defers')
    spec.copyFromContainer (fun p hp => ⟨h1 p hp, h15 p hp⟩)
  have eStop : runStop env (Act.closeLogReader :: Act.containerKill :: defers')
      = { actions := [Act.containerStop, Act.containerRemove]
            ++ Act.closeLogReader :: Act.containerKill :: defers',
          outcome := .returned } := by
    simp [runStop, h16, h17]
  rw [e, eW, eF, eStop]
  refine ⟨by simp, ?_⟩
  simp only [prependActs_actions]
  have hsub : [Act.containerStop, Act.containerRemove, Act.containerKill].Sublist
      ([Act.containerStop, Act.containerRemove]
        ++ Act.closeLogReader :: Act.containerKill :: defers') := by
    refine .cons₂ _ (.cons₂ _ (.cons _ (.cons₂ _ (List.nil_sublist _))))
  exact hsub.trans ((List.sublist_append_right _ _).trans
    ((List.sublist_append_right _ _).trans (List.sublist_append_right _ _)))

theorem c1_witness :
    (runGhcr okEnv specA).outcome = Outcome.returned
    ∧ [Act.containerStop, Act.containerRemove, Act.containerKill].Sublist
        (runGhcr okEnv specA).actions :=
  c1_amended_stop_remove_on_success okEnv specA (by decide) rfl rfl rfl rfl (by decide) rfl
    rfl rfl rfl rfl rfl rfl (by decide) rfl rfl

/-- C5 (amended): the runner reports a fatal error carrying the non-zero exit
status only when log collection succeeded — under a resolved wait status
`s ≠ 0` with successful log fetch and reassembly, the run ends in a fatal
exit carrying `s` (whatever the other oracle outcomes). -/
theorem c5_amended_exit_code (env : RunEnv) (spec : TaskSpec) (s : Int)
    (h1 : ∀ p ∈ spec.copyFromContainer, p.2 ∉ env.existingHostPaths)
    (h2 : env.clientInitErr = none)
    (h3 : env.dockerCfgLoadErr = none)
    (h5 : env.imageInspectErr = none)
    (h6 : env.createErr = none)
    (h7 : ∀ p ∈ spec.copyToContainer, p ∉ env.copyToFails)
    (h8 : env.startErr = none)
    (h9 : env.waitOutcome = WaitOutcome.status s)
    (h10 : env.postInspectErr = none)
    (h11 : env.startedAtParseOk = true)
    (h12 : env.finishedAtParseOk = true)
    (h13 : env.logsErr = none)
    (h14 : env.stdCopyErr = none)
    (hs : s ≠ 0) :
    (runGhcr env spec).outcome = Outcome.fatalExit (FatalReason.nonZeroExit s) := by
  obtain ⟨big, defers', e, _, _⟩ := run_reaches_wait env spec h1 h2 h3 h5 h6 h7 h8
  rw [e]
  simp [runWait, h9, h10, h11, h12, h13, h14, hs]

def envC5w : RunEnv := { okEnv with waitOutcome := .status 3 }

theorem c5_witness :
    (runGhcr envC5w specA).outcome = Outcome.fatalExit (FatalReason.nonZeroExit 3) :=
  c5_amended_exit_code envC5w specA 3 (by decide) rfl rfl rfl rfl (by decide) rfl rfl rfl
    rfl rfl rfl rfl (by decide)

/-- C6 (amended): of the log-collection failure modes, only the line-scanner
error is merely logged; a failure fetching the log stream (`ContainerLogs`) is
not a fatal exit but makes the runner return early — skipping output
collection, `Stop` and `Remove`, with only the deferred cleanup (including the
kill guard) running — and a failure reassembling the stream
(`stdcopy.StdCopy`) is fatal. -/
theorem c6_amended_log_failure (env : RunEnv) (spec : TaskSpec) (s : Int) (e : String)
    (h1 : ∀ p ∈ spec.copyFromContainer, p.2 ∉ env.existingHostPaths)
    (h2 : env.clientInitErr = none)
    (h3 : env.dockerCfgLoadErr = none)
    (h5 : env.imageInspectErr = none)
    (h6 : env.createErr = none)
    (h7 : ∀ p ∈ spec.copyToContainer, p ∉ env.copyToFails)
    (h8 : env.startErr = none)
    (h9 : env.waitOutcome = WaitOutcome.status s)
    (h10 : env.postInspectErr = none)
    (h11 : env.startedAtParseOk = true)
    (h12 : env.finishedAtParseOk = true) :
    (env.logsErr = some e →
      (runGhcr env spec).outcome = Outcome.returned
      ∧ Act.containerKill ∈ (runGhcr env spec).actions
      ∧ Act.containerStop ∉ (runGhcr env spec).actions
      ∧ Act.containerRemove ∉ (runGhcr env spec).actions
      ∧ ∀ src dst, Act.copyFromContainer src dst ∉ (runGhcr env spec).actions)
    ∧ (env.logsErr = none → env.stdCopyErr = some e →
      (runGhcr env spec).outcome = Outcome.fatalExit (FatalReason.stdCopy e)) := by
  obtain ⟨big, defers', eq, hKinds, hDef⟩ := run_reaches_wait env spec h1 h2 h3 h5 h6 h7 h8
  constructor
  · intro hlogs
    have hActs : (runWait env spec (Act.containerKill :: defers')).actions
        = Act.containerWait :: Act.postInspect :: Act.containerLogs :: Act.closeLogReader
          :: Act.containerKill :: defers' := by
      simp [runWait, h9, h10, h11, h12, hlogs]
    have hOut : (runWait env spec (Act.containerKill :: defers')).outcome = Outcome.returned := by
      simp [runWait, h9, h10, h11, h12, hlogs]
    refine ⟨?_, ?_, ?_, ?_, ?_⟩
    · rw [eq]
      simp [hOut]
    · rw [eq]
      simp [hActs]
    · rw [eq]
      simp only [prependActs_actions, hActs]
      intro hmem
      rcases List.mem_append.1 hmem with hbig | hrest
      · exact (stagePhaseAct_ne _ (hKinds _ hbig)).1 rfl
      · rcases List.mem_cons.1 hrest with h | hrest
        · exact Act.noConfusion h
        rcases List.mem_cons.1 hrest with h | hrest
        · exact Act.noConfusion h
        rcases List.mem_cons.1 hrest with h | hrest
        · exact Act.noConfusion h
        rcases List.mem_cons.1 hrest with h | hrest
        · exact Act.noConfusion h
        rcases List.mem_cons.1 hrest with h | hrest
        · exact Act.noConfusion h
        rcases hDef _ hrest with h | h <;> exact Act.noConfusion h
    · rw [eq]
      simp only [prependActs_actions, hActs]
      intro hmem
      rcases List.mem_append.1 hmem with hbig | hrest
      · exact (stagePhaseAct_ne _ (hKinds _ hbig)).2.1 rfl
      · rcases List.mem_cons.1 hrest with h | hrest
        · exact Act.noConfusion h
        rcases List.mem_cons.1 hrest with h | hrest
        · exact Act.noConfusion h
        rcases List.mem_cons.1 hrest with h | hrest
        · exact Act.noConfusion h
        rcases List.mem_cons.1 hrest with h | hrest
        · exact Act.noConfusion h
        rcases List.mem_cons.1 hrest with h | hrest
        · exact Act.noConfusion h
        rcases hDef _ hrest with h | h <;> exact Act.noConfusion h
    · intro src dst
      rw [eq]
      simp only [prependActs_actions, hActs]
      intro hmem
      rcases List.mem_append.1 hmem with hbig | hrest
      · exact (stagePhaseAct_ne _ (hKinds _ hbig)).2.2.2 src dst rfl
      · rcases List.mem_cons.1 hrest with h | hrest
        · exact Act.noConfusion h
        rcases List.mem_cons.1 hrest with h | hrest
        · exact Act.noConfusion h
        rcases List.mem_cons.1 hrest with h | hrest
        · exact Act.noConfusion h
        rcases List.mem_cons.1 hrest with h | hrest
        · exact Act.noConfusion h
        rcases List.mem_cons.1 hrest with h | hrest
        · exact Act.noConfusion h
        rcases hDef _ hrest with h | h <;> exact Act.noConfusion h
  · intro hlogs hstd
    rw [eq]
    simp [runWait, h9, h10, h11, h12, hlogs, hstd]

def envC6w : RunEnv := { okEnv with logsErr := some "cannot attach to logs" }

theorem c6_witness :
    (runGhcr envC6w specA).outcome = Outcome.returned
    ∧ Act.containerKill ∈ (runGhcr envC6w specA).actions
    ∧ Act.containerStop ∉ (runGhcr envC6w specA).actions
    ∧ Act.containerRemove ∉ (runGhcr envC6w specA).actions
    ∧ ∀ src dst, Act.copyFromContainer src dst ∉ (runGhcr envC6w specA).actions :=
  (c6_amended_log_failure envC6w specA 0 "cannot attach to logs" (by decide) rfl rfl rfl rfl
    (by decide) rfl rfl rfl rfl rfl).1 rfl

/-! ### Theorems: credential resolution (C9) -/

theorem runAcquire_pull_mem (env : RunEnv) (spec : TaskSpec) (defers : List Act)
    (auth : Option String) :
    Act.imagePull auth ∈ (runAcquire env spec defers auth).actions := by
  by_cases hp : env.imagePullErr = none <;> simp [runAcquire, hp, prependActs]

/-- C9: credential resolution for a registry-hosted image — a non-empty
explicit token is paired with the fixed conventional username and sent as the
pull auth header; with an empty token the local credential store is consulted
and a stored password is paired with the same fixed username and sent;
when neither source yields a credential, the pull is attempted with no auth
header. -/
theorem c9_credential_resolution (env : RunEnv) (spec : TaskSpec)
    (h1 : ∀ p ∈ spec.copyFromContainer, p.2 ∉ env.existingHostPaths)
    (h2 : env.clientInitErr = none)
    (hpre : goHasPre spec.imageLink env.ghHost = true) :
    (env.githubToken ≠ "" →
      Act.imagePull (some (encodeAuth ghcrUsername env.githubToken))
        ∈ (runGhcr env spec).actions)
    ∧ (env.githubToken = "" → env.dockerCfgLoadErr = none → env.storedPassword ≠ "" →
      Act.loadDockerConfig ∈ (runGhcr env spec).actions
      ∧ Act.imagePull (some (encodeAuth ghcrUsername env.storedPassword))
          ∈ (runGhcr env spec).actions)
    ∧ (env.githubToken = "" → env.dockerCfgLoadErr = none → env.storedPassword = "" →
      Act.imagePull none ∈ (runGhcr env spec).actions) := by
  have e0 : runGhcr env spec
      = prependActs (spec.copyFromContainer.map fun p => Act.statCheck p.2)
          (runClient env spec) := by
    unfold runGhcr
    rw [statPhase_ok env.existingHostPaths spec.copyFromContainer h1]
  have e1 : runClient env spec
      = prependActs [Act.clientInit] (runAuth env spec [Act.closeClient]) := by
    unfold runClient
    rw [h2]
  refine ⟨?_, ?_, ?_⟩
  · intro ht
    have e2 : runAuth env spec [Act.closeClient]
        = runAcquire env spec [Act.closeClient]
            (some (encodeAuth ghcrUsername env.githubToken)) := by
      simp [runAuth, hpre, ht, mkAuthOption]
    rw [e0, e1, e2]
    exact List.mem_append_right _
      (List.mem_cons_of_mem _ (runAcquire_pull_mem env spec [Act.closeClient] _))
  · intro ht hcfg hst
    have e2 : runAuth env spec [Act.closeClient]
        = prependActs [Act.loadDockerConfig]
            (runAcquire env spec [Act.closeClient]
              (some (encodeAuth ghcrUsername env.storedPassword))) := by
      simp [runAuth, hpre, ht, hcfg, mkAuthOption, hst]
    constructor
    · rw [e0, e1, e2]
      exact List.mem_append_right _
        (List.mem_cons_of_mem _ (List.mem_cons_self _ _))
    · rw [e0, e1, e2]
      exact List.mem_append_right _ (List.mem_cons_of_mem _
        (List.mem_cons_of_mem _ (runAcquire_pull_mem env spec [Act.closeClient] _)))
  · intro ht hcfg hst
    have e2 : runAuth env spec [Act.closeClient]
        = prependActs [Act.loadDockerConfig]
            (runAcquire env spec [Act.closeClient] none) := by
      simp [runAuth, hpre, ht, hcfg, mkAuthOption, hst]
    rw [e0, e1, e2]
    exact List.mem_append_right _ (List.mem_cons_of_mem _
      (List.mem_cons_of_mem _ (runAcquire_pull_mem env spec [Act.closeClient] _)))

def specGh : TaskSpec := { specA with imageLink := "ghcr.io/seqrateam/analyzer:v1" }

def envC9 : RunEnv := { okEnv with githubToken := "ghp_token123" }

theorem c9_witness :
    Act.imagePull (some (encodeAuth ghcrUsername "ghp_token123"))
      ∈ (runGhcr envC9 specGh).actions :=
  (c9_credential_resolution envC9 specGh (by decide) rfl (by decide)).1 (by decide)
